import Mathlib

set_option autoImplicit false

/-
Shallow embedding of the ccEvo decision-and-gating pipeline, translated from
the repository sources:
  src/gep/mutation.js, src/gep/store.js, src/gep/gene.js, src/core/selector.js,
  src/core/signals.js, src/tree/node.js, src/tree/capability_tree.js,
  src/tree/pruner.js, src/vfm/mutator.js, src/vfm/scorer.js, src/pcec/cycle.js.
JavaScript numbers are modelled as Rat (exact arithmetic on the values the
code computes), timestamps as rationals in milliseconds, JS objects as
structures, and absent/null fields as Option.
-/

namespace CcEvo

/-! Mutation protocol: src/gep/mutation.js -/

/-- The three mutation categories of the protocol. -/
inductive MutCategory where
  | repair
  | optimize
  | innovate
deriving DecidableEq, Repr

/-- Risk levels assigned to mutations. -/
inductive RiskLevel where
  | low
  | lowMedium
  | medium
deriving DecidableEq, Repr

/-- RISK_MAP of mutation.js: category to base risk. -/
def RISK_MAP : MutCategory → RiskLevel
  | MutCategory.repair => RiskLevel.low
  | MutCategory.optimize => RiskLevel.lowMedium
  | MutCategory.innovate => RiskLevel.medium

/-- A mutation proposal as built by createMutation (fields used downstream). -/
structure Mutation where
  category : MutCategory
  trigger_signals : List String
  target : String
  expected_effect : String
  gene_id : Option String
deriving DecidableEq, Repr

/-- Blast radius: files and lines touched. -/
structure Blast where
  files : Int
  lines : Int
deriving DecidableEq, Repr

/-- assessRisk of mutation.js: base risk from the category, escalation and
warnings from the blast radius.  Note the lines branch only appends a
warning; it does not reassign the risk. -/
def assessRisk (mutation : Mutation) (blast : Blast) : RiskLevel × List String :=
  let warnings : List String := []
  let risk := RISK_MAP mutation.category
  let step1 :=
    if blast.files > 10 then
      (RiskLevel.medium, warnings ++ ["High blast radius: " ++ toString blast.files ++ " files"])
    else (risk, warnings)
  let step2 :=
    if blast.lines > 500 then
      (step1.1, step1.2 ++ ["Large change: " ++ toString blast.lines ++ " lines"])
    else step1
  if mutation.category = MutCategory.innovate ∧ blast.files > 5 then
    (RiskLevel.medium, step2.2 ++ ["Innovation with wide blast radius"])
  else step2

/-! Models of the JS string builtins the sources call.  They are defined
by structural recursion over the character list so that concrete inputs
evaluate inside the kernel; each mirrors the ECMAScript behaviour on the
BMP text the pipeline handles. -/

/-- JS String.prototype.trim: strip leading and trailing whitespace. -/
def jsTrim (s : String) : String :=
  (((s.toList.dropWhile Char.isWhitespace).reverse.dropWhile Char.isWhitespace).reverse).asString

/-- JS String.prototype.toLowerCase. -/
def jsToLower (s : String) : String :=
  (s.toList.map Char.toLower).asString

/-- JS String.prototype.startsWith. -/
def jsStartsWith (s p : String) : Bool :=
  p.toList.isPrefixOf s.toList

/-- JS String.prototype.endsWith. -/
def jsEndsWith (s p : String) : Bool :=
  p.toList.isSuffixOf s.toList

/-- JS String.prototype.slice(0, n) on BMP text. -/
def jsTake (s : String) (n : Nat) : String :=
  (s.toList.take n).asString

/-- Split a character list at every character satisfying p, keeping empty
pieces (the behaviour of String.prototype.split with a single-character
class). -/
def splitCharsAux (p : Char → Bool) : List Char → List Char → List (List Char)
  | [], cur => [cur.reverse]
  | c :: rest, cur =>
    if p c then cur.reverse :: splitCharsAux p rest []
    else splitCharsAux p rest (c :: cur)

/-- JS String.prototype.split on a character class. -/
def splitChars (p : Char → Bool) (s : String) : List String :=
  (splitCharsAux p s.toList []).map List.asString

/-- JS Array.prototype.join. -/
def jsJoin (sep : String) : List String → String
  | [] => ""
  | [x] => x
  | x :: xs => x ++ sep ++ jsJoin sep xs

/-! Asset store: src/gep/store.js.  The file system is modelled as the
optional file content (none = file absent) and the JSON.parse builtin as a
parameter of type String to Except, which matches its JS behaviour of
either returning a value or throwing a SyntaxError. -/

/-- Minimal JSON value shape for the persisted collections. -/
inductive Json where
  | arr (elems : List Json)
  | obj (members : List (String × Json))
  | prim (lit : String)

/-- The empty collection readJSON substitutes for a missing or blank file:
an array for .json files, an object otherwise. -/
def emptyFor (filename : String) : Json :=
  if jsEndsWith filename ".json" then Json.arr [] else Json.obj []

/-- readJSON of store.js.  A missing file or blank content yields the empty
collection; otherwise the raw content goes straight to JSON.parse. -/
def readJSON (parse : String → Except String Json) (filename : String)
    (content : Option String) : Except String Json :=
  match content with
  | none => Except.ok (emptyFor filename)
  | some raw =>
    if jsTrim raw = "" then Except.ok (emptyFor filename)
    else parse (jsTrim raw)

/-- readJSONL of store.js: split trimmed content on newlines, drop empty
lines, parse each line (the JS .map throws at the first bad line). -/
def readJSONL (parse : String → Except String Json)
    (content : Option String) : Except String (List Json) :=
  match content with
  | none => Except.ok []
  | some raw =>
    if jsTrim raw = "" then Except.ok []
    else ((splitChars (fun c => c == '\n') (jsTrim raw)).filter (fun l => !l.isEmpty)).mapM parse

/-- loadGenes of store.js. -/
def loadGenes (parse : String → Except String Json)
    (content : Option String) : Except String Json :=
  readJSON parse "genes.json" content

/-- loadCapsules of store.js. -/
def loadCapsules (parse : String → Except String Json)
    (content : Option String) : Except String Json :=
  readJSON parse "capsules.json" content

/-- loadEvents of store.js. -/
def loadEvents (parse : String → Except String Json)
    (content : Option String) : Except String (List Json) :=
  readJSONL parse content

/-- loadCapabilityTree of store.js. -/
def loadCapabilityTree (parse : String → Except String Json)
    (content : Option String) : Except String Json :=
  readJSON parse "capability_tree.json" content

/-- A parse outcome standing for JSON.parse on unparsable content such as
"not json", on which the JS builtin throws a SyntaxError. -/
def parseAlwaysFails : String → Except String Json :=
  fun _ => Except.error "SyntaxError"

/-! Genes and the selector: src/gep/gene.js and src/core/selector.js. -/

/-- Gene constraints (constraints.max_files may be absent or falsy). -/
structure GeneConstraints where
  max_files : Option ℚ
  forbidden_paths : List String
deriving DecidableEq, Repr

/-- A stored gene (fields consumed by the selector and the scorer). -/
structure Gene where
  id : String
  category : MutCategory
  signals_match : List String
  preconditions : List String
  strategy : List String
  constraints : GeneConstraints
  validation : List String
  capability_node_id : Option String
  v_score : Option ℚ
deriving DecidableEq, Repr

/-- The prefix form of a required pattern: the JS replace of /:.*$/ with
a colon, i.e. everything through the first colon (patterns contain no
newline, so .* reaches the end of the string). -/
def patternHead (s : String) : String :=
  if s.toList.contains ':' then ((s.toList.takeWhile (fun c => c != ':')).asString) ++ ":" else s

/-- matchScore of gene.js: 1 per verbatim signal, 0.5 per prefix match,
divided by the number of required patterns. -/
def matchScore (g : Gene) (signals : List String) : ℚ :=
  if g.signals_match.isEmpty then 0
  else
    let matched := g.signals_match.foldl (fun acc s =>
      if s ∈ signals then acc + 1
      else
        let h := patternHead s
        if h ≠ s ∧ signals.any (fun sig => jsStartsWith sig h) then acc + (1/2 : ℚ)
        else acc) 0
    matched / (g.signals_match.length : ℚ)

/-- The score selectGene ranks a gene by: matchScore plus a flat 0.1 bonus
when the gene category equals the preferred category. -/
def geneScore (g : Gene) (signals : List String) (preferCategory : Option MutCategory) : ℚ :=
  matchScore g signals +
    (match preferCategory with
     | some c => if g.category = c then (1/10 : ℚ) else 0
     | none => 0)

/-- First element of a nonempty scored list after the stable descending
sort of selector.js: the earliest entry holding the maximal score. -/
def pickTopScored (x : Gene × ℚ) (xs : List (Gene × ℚ)) : Gene × ℚ :=
  xs.foldl (fun best p => if best.2 < p.2 then p else best) x

/-- selectGene of selector.js, with the gene store contents passed in (the
source reads them via loadGenes). -/
def selectGene (genes : List Gene) (signals : List String)
    (preferCategory : Option MutCategory) (minScore : ℚ) : Option Gene :=
  if signals.isEmpty then none
  else if genes.isEmpty then none
  else
    let scored := genes.map (fun g => (g, geneScore g signals preferCategory))
    match scored.filter (fun p => minScore ≤ p.2) with
    | [] => none
    | x :: xs => some (pickTopScored x xs).1

/-! VFM weight mutator: src/vfm/mutator.js. -/

/-- Capsule metrics (the part the mutator and scorer read). -/
structure CapsuleMetrics where
  validation_passed : Bool
deriving DecidableEq, Repr

/-- A capsule record (fields consumed by the mutator and scorer). -/
structure Capsule where
  gene_id : Option String
  mutation_category : Option String
  metrics : Option CapsuleMetrics
deriving DecidableEq, Repr

/-- An audit event record (field consumed by the mutator). -/
structure EvoEvent where
  event_type : String
deriving DecidableEq, Repr

/-- The four VFM weights. -/
structure VWeights where
  frequency : ℚ
  failReduce : ℚ
  userBurden : ℚ
  selfCost : ℚ
deriving DecidableEq, Repr

/-- MAX_ADJUSTMENT of mutator.js. -/
def MAX_ADJUSTMENT : ℚ := 1/2

/-- WEIGHT_MIN of mutator.js. -/
def WEIGHT_MIN : ℚ := 1

/-- WEIGHT_MAX of mutator.js. -/
def WEIGHT_MAX : ℚ := 5

/-- HIGH_SUCCESS_THRESHOLD of mutator.js. -/
def HIGH_SUCCESS_THRESHOLD : ℚ := 4/5

/-- HIGH_FAIL_THRESHOLD of mutator.js. -/
def HIGH_FAIL_THRESHOLD : ℚ := 2/5

/-- clampWeight of mutator.js: clamp into [WEIGHT_MIN, WEIGHT_MAX]. -/
def clampWeight (weight : ℚ) : ℚ :=
  min (max weight WEIGHT_MIN) WEIGHT_MAX

/-- The truthiness of c.metrics and c.metrics.validation_passed. -/
def capsulePassed (c : Capsule) : Bool :=
  match c.metrics with
  | some m => m.validation_passed
  | none => false

/-- computeSuccessRate of mutator.js: 1.0 for an empty list. -/
def computeSuccessRate (capsules : List Capsule) : ℚ :=
  if capsules.isEmpty then 1
  else ((capsules.filter capsulePassed).length : ℚ) / (capsules.length : ℚ)

/-- isLowInnovation of mutator.js: at least 5 samples and under 10 percent
innovate share. -/
def isLowInnovation (capsules : List Capsule) : Bool :=
  if capsules.length < 5 then false
  else
    decide (((capsules.filter (fun c => c.mutation_category == some "innovate")).length : ℚ)
      / (capsules.length : ℚ) < (1/10 : ℚ))

/-- hasCapabilityGrowth of mutator.js. -/
def hasCapabilityGrowth (events : List EvoEvent) : Bool :=
  if events.isEmpty then false
  else events.any (fun e => e.event_type == "capability_grown")

/-- mutateWeights of mutator.js: four additive adjustment rules followed by
a clamp of every weight into [1, 5]. -/
def mutateWeights (currentWeights : VWeights) (recentCapsules : List Capsule)
    (recentEvents : List EvoEvent) : VWeights :=
  let successRate := computeSuccessRate recentCapsules
  let failRate := 1 - successRate
  let w1 :=
    if successRate > HIGH_SUCCESS_THRESHOLD ∧ isLowInnovation recentCapsules then
      { currentWeights with
          failReduce := currentWeights.failReduce - MAX_ADJUSTMENT,
          frequency := currentWeights.frequency + MAX_ADJUSTMENT }
    else currentWeights
  let w2 :=
    if failRate > HIGH_FAIL_THRESHOLD then
      { w1 with failReduce := w1.failReduce + MAX_ADJUSTMENT }
    else w1
  let w3 :=
    if hasCapabilityGrowth recentEvents then
      { w2 with userBurden := w2.userBurden + MAX_ADJUSTMENT * (1/2) }
    else w2
  let w4 :=
    if successRate > HIGH_SUCCESS_THRESHOLD ∧ hasCapabilityGrowth recentEvents = false then
      { w3 with selfCost := w3.selfCost + MAX_ADJUSTMENT * (1/2) }
    else w3
  { frequency := clampWeight w4.frequency,
    failReduce := clampWeight w4.failReduce,
    userBurden := clampWeight w4.userBurden,
    selfCost := clampWeight w4.selfCost }

/-- A capsule whose validation failed (metrics.validation_passed false). -/
def cFail : Capsule :=
  { gene_id := none, mutation_category := none, metrics := some { validation_passed := false } }

/-! Signal extractor: src/core/signals.js.  Session-log entries are
heterogeneous JS objects; the fields the extractor probes are modelled as
optional fields of one structure.  An entry message is either a message
object (OpenClaw format) or a plain string (simplified user_request
format). -/

/-- A content block of an OpenClaw message. -/
structure ContentBlock where
  type : String
  text : Option String
  name : Option String
deriving DecidableEq, Repr

/-- The content field of a message: a string, a block array, or another
shape (probed as neither). -/
inductive MsgContent where
  | str (s : String)
  | blocks (bs : List ContentBlock)
  | other
deriving DecidableEq, Repr

/-- An OpenClaw message object. -/
structure Message where
  role : Option String
  content : MsgContent
  stopReason : Option String
  errorMessage : Option String
deriving DecidableEq, Repr

/-- The message field of an entry: a message object or a plain string. -/
inductive EntryMessage where
  | obj (m : Message)
  | str (s : String)
deriving DecidableEq, Repr

/-- One session-log entry with every field the extractor inspects.
dataName models entry.data and its name field for custom events. -/
structure Entry where
  type : Option String
  message : Option EntryMessage
  level : Option String
  detail : Option String
  tool_name : Option String
  status : Option String
  result : Option String
  mutation_applied : Bool
  solidify_failed : Bool
  name : Option String
  customType : Option String
  dataName : Option String
deriving DecidableEq, Repr

/-- An entry with every optional field absent and flags false. -/
def emptyEntry : Entry :=
  { type := none, message := none, level := none, detail := none, tool_name := none,
    status := none, result := none, mutation_applied := false, solidify_failed := false,
    name := none, customType := none, dataName := none }

/-- JS truthiness of an optional string (undefined, null and "" are falsy). -/
def optStrTruthy (o : Option String) : Bool :=
  match o with
  | none => false
  | some s => !s.isEmpty

/-- JS truthiness of an entry message. -/
def msgTruthy (o : Option EntryMessage) : Bool :=
  match o with
  | none => false
  | some (EntryMessage.str s) => !s.isEmpty
  | some (EntryMessage.obj _) => true

/-- Optional chaining entry.message to a message object (a string message
has none of the probed properties). -/
def entryMessageObj (e : Entry) : Option Message :=
  match e.message with
  | some (EntryMessage.obj m) => some m
  | _ => none

/-- Optional chaining entry.message to its role. -/
def entryRole (e : Entry) : Option String :=
  (entryMessageObj e).bind (fun m => m.role)

/-- Optional chaining entry.message to its stopReason. -/
def entryStopReason (e : Entry) : Option String :=
  (entryMessageObj e).bind (fun m => m.stopReason)

/-- Optional chaining entry.message to its errorMessage. -/
def entryErrorMessage (e : Entry) : Option String :=
  (entryMessageObj e).bind (fun m => m.errorMessage)

/-- The error test on a message object: stopReason === error or a truthy
errorMessage. -/
def isErrorMessage (m : Message) : Bool :=
  m.stopReason == some "error" || optStrTruthy m.errorMessage

/-- JS a || b || '' over optional strings: the first truthy one or "". -/
def firstTruthyStr (a b : Option String) : String :=
  match a with
  | some s => if s.isEmpty then (match b with | some t => t | none => "") else s
  | none => match b with | some t => t | none => ""

/-- A character kept verbatim by the detail normalizer: the regex class
a-zA-Z0-9_ plus the CJK range 4e00-9fff; everything else becomes an
underscore. -/
def isDetailChar (c : Char) : Bool :=
  c.isAlphanum || c == '_' || (decide (0x4e00 ≤ c.val) && decide (c.val ≤ 0x9fff))

/-- The detail normalization of signals.js: truncate to 80, replace every
character outside the kept class with an underscore, truncate to 50
(string indices coincide with code units for the BMP text involved). -/
def normalizeDetail (detail : String) : String :=
  let shortDetail := if detail.length > 80 then jsTake detail 80 else detail
  jsTake ((shortDetail.toList.map (fun c => if isDetailChar c then c else '_')).asString) 50

/-- Set.add with JS insertion order: append the signal if absent. -/
def addSignal (sigs : List String) (s : String) : List String :=
  if s ∈ sigs then sigs else sigs ++ [s]

/-- Map.set-based counting with JS insertion order. -/
def bumpCount (counts : List (String × Nat)) (key : String) : List (String × Nat) :=
  if counts.any (fun p => p.1 == key) then
    counts.map (fun p => if p.1 = key then (p.1, p.2 + 1) else p)
  else counts ++ [(key, 1)]

/-- The OpenClaw half of the error-signal loop body. -/
def errorStepOpen (acc : List String × List (String × Nat)) (e : Entry) :
    List String × List (String × Nat) :=
  if e.type == some "message" && msgTruthy e.message then
    match entryMessageObj e with
    | some m =>
      if isErrorMessage m then
        let sigs := addSignal acc.1 "log_error"
        let detail := firstTruthyStr m.errorMessage m.stopReason
        if !detail.isEmpty then
          let normalized := normalizeDetail detail
          (addSignal sigs ("errsig:" ++ normalized), bumpCount acc.2 normalized)
        else (sigs, acc.2)
      else acc
    | none => acc
  else acc

/-- The simplified-format half of the error-signal loop body. -/
def errorStepSimple (acc : List String × List (String × Nat)) (e : Entry) :
    List String × List (String × Nat) :=
  if e.level == some "error" || (e.type == some "error" && !msgTruthy e.message) then
    let sigs := addSignal acc.1 "log_error"
    match e.detail with
    | some d =>
      if !d.isEmpty then (addSignal sigs ("errsig:" ++ d), bumpCount acc.2 d)
      else (sigs, acc.2)
    | none => (sigs, acc.2)
  else acc

/-- One iteration of the error-signal loop (both format branches). -/
def errorStep (acc : List String × List (String × Nat)) (e : Entry) :
    List String × List (String × Nat) :=
  errorStepSimple (errorStepOpen acc e) e

/-- The error-signal section: the loop plus the recurring-detail check. -/
def errorSignals (entries : List Entry) (sigs : List String) : List String :=
  let st := entries.foldl errorStep (sigs, [])
  if st.2.any (fun p => 3 ≤ p.2) then addSignal st.1 "recurring_error" else st.1

/-- extractText of signals.js. -/
def extractText (e : Entry) : String :=
  match e.message with
  | none => ""
  | some (EntryMessage.str _) => ""
  | some (EntryMessage.obj m) =>
    match m.content with
    | MsgContent.str s => s
    | MsgContent.blocks bs =>
      jsJoin " "
        ((bs.filter (fun c => c.type == "text" && optStrTruthy c.text)).map
          (fun c => c.text.getD ""))
    | MsgContent.other => ""

/-- The feature vocabulary of the FEATURE_KEYWORDS regex alternation. -/
def FEATURE_WORDS : List String :=
  ["feature", "ability", "add", "功能", "能力", "添加"]

/-- A regex word character (the JS ASCII \w class). -/
def isWordChar (c : Char) : Bool :=
  c.isAlphanum || c == '_'

/-- Whether an optional neighbour character is a word character (absent
counts as non-word). -/
def optIsWord (o : Option Char) : Bool :=
  match o with
  | none => false
  | some c => isWordChar c

/-- A \b word boundary between two neighbouring positions: exactly one
side is a word character. -/
def wordBoundary (l r : Option Char) : Bool :=
  optIsWord l != optIsWord r

/-- Whether the keyword matches at the head of cs with \b on both sides,
prev being the character before the match position. -/
def matchKeywordAt (prev : Option Char) (cs kw : List Char) : Bool :=
  if cs.take kw.length == kw then
    wordBoundary prev kw.head? && wordBoundary kw.getLast? (cs.drop kw.length).head?
  else false

/-- Whether the keyword matches at any position of cs. -/
def hasKeywordFrom : Option Char → List Char → List Char → Bool
  | prev, [], kw => matchKeywordAt prev [] kw
  | prev, c :: rest, kw =>
    matchKeywordAt prev (c :: rest) kw || hasKeywordFrom (some c) rest kw

/-- The case-insensitive FEATURE_KEYWORDS test (both sides lowercased;
the keywords are already lowercase ASCII or case-less CJK). -/
def testFeatureKeywords (text : String) : Bool :=
  let cs := (jsToLower text).toList
  FEATURE_WORDS.any (fun kw => hasKeywordFrom none cs kw.toList)

/-- One iteration of the opportunity-signal loop. -/
def featureStep (sigs : List String) (e : Entry) : List String :=
  let sigs :=
    if e.type == some "message" && entryRole e == some "user" then
      if testFeatureKeywords (extractText e) then addSignal sigs "user_feature_request"
      else sigs
    else sigs
  if e.type == some "user_request" then
    match e.message with
    | some (EntryMessage.str s) =>
      if testFeatureKeywords s then addSignal sigs "user_feature_request" else sigs
    | _ => sigs
  else sigs

/-- The opportunity-signal section. -/
def opportunitySignals (entries : List Entry) (sigs : List String) : List String :=
  entries.foldl featureStep sigs

/-- The assistant-message filter of signals.js. -/
def isAssistantMsg (e : Entry) : Bool :=
  e.type == some "message" && entryRole e == some "assistant"

/-- The no-error test of the stable-success check. -/
def msgNoError (e : Entry) : Bool :=
  !(entryStopReason e == some "error") && !(optStrTruthy (entryErrorMessage e))

/-- The error test of the all-error stagnation check. -/
def msgIsError (e : Entry) : Bool :=
  entryStopReason e == some "error" || optStrTruthy (entryErrorMessage e)

/-- The simplified-format success test of the plateau check. -/
def statusSuccess (e : Entry) : Bool :=
  e.status == some "success" || e.result == some "success"

/-- The stable-success-plateau section (OpenClaw check, then the
simplified-format check guarded by a Set.has test). -/
def plateauSignals (entries : List Entry) (sigs : List String) : List String :=
  let assistantMsgs := entries.filter isAssistantMsg
  let sigs :=
    if 10 ≤ assistantMsgs.length ∧
        (assistantMsgs.drop (assistantMsgs.length - 10)).all msgNoError = true then
      addSignal sigs "stable_success_plateau"
    else sigs
  if 10 ≤ entries.length ∧
      (entries.drop (entries.length - 10)).all statusSuccess = true ∧
      ¬ ("stable_success_plateau" ∈ sigs) then
    addSignal sigs "stable_success_plateau"
  else sigs

/-- The tool names one entry contributes, in probe order: tool_use blocks
of an assistant message, then a truthy tool_name field. -/
def entryToolNames (e : Entry) : List String :=
  (if e.type == some "message" && entryRole e == some "assistant" then
    match entryMessageObj e with
    | some m =>
      match m.content with
      | MsgContent.blocks bs =>
        (bs.filter (fun b => b.type == "tool_use" && optStrTruthy b.name)).map
          (fun b => b.name.getD "")
      | _ => []
    | none => []
  else []) ++
  (match e.tool_name with
   | some t => if !t.isEmpty then [t] else []
   | none => [])

/-- The high-tool-usage section: count every tool invocation, then emit a
signal per tool with at least 5 uses, in first-seen order. -/
def toolSignals (entries : List Entry) (sigs : List String) : List String :=
  let counts := (entries.flatMap entryToolNames).foldl bumpCount []
  counts.foldl (fun acc p => if 5 ≤ p.2 then addSignal acc ("high_tool_usage:" ++ p.1) else acc)
    sigs

/-- The adjacent-run scan of the repeated-tool-usage section. -/
def addRepeated (sigs : List String) (seq : List String) : List String :=
  match seq with
  | [] => sigs
  | t0 :: rest =>
    (rest.foldl (fun acc t =>
      if t = acc.2.1 then
        let cnt := acc.2.2 + 1
        (if 3 ≤ cnt then addSignal acc.1 ("repeated_tool_usage:" ++ t) else acc.1, t, cnt)
      else (acc.1, t, 1)) (sigs, t0, 1)).1

/-- The repeated-tool-usage section. -/
def repeatedSignals (entries : List Entry) (sigs : List String) : List String :=
  addRepeated sigs (entries.flatMap entryToolNames)

/-- The stagnation section: the repair-loop count and the all-error check
over every assistant message. -/
def stagnationSignals (entries : List Entry) (sigs : List String) : List String :=
  let solidifyFailCount :=
    (entries.filter (fun e => e.mutation_applied && e.solidify_failed)).length
  let sigs := if 3 ≤ solidifyFailCount then addSignal sigs "repair_loop_detected" else sigs
  let assistantMsgs := entries.filter isAssistantMsg
  if 5 ≤ assistantMsgs.length ∧ assistantMsgs.all msgIsError = true then
    addSignal (addSignal sigs "recurring_error") "evolution_stagnation"
  else sigs

/-- One iteration of the capability-signal loop. -/
def capabilityStep (sigs : List String) (e : Entry) : List String :=
  let sigs :=
    if e.type == some "capability_mention" && optStrTruthy e.name then
      addSignal sigs ("capability_candidate:" ++ e.name.getD "")
    else sigs
  if e.type == some "custom" && e.customType == some "capability_mention" &&
      optStrTruthy e.dataName then
    addSignal sigs ("capability_candidate:" ++ e.dataName.getD "")
  else sigs

/-- The capability-signal section. -/
def capabilitySignals (entries : List Entry) (sigs : List String) : List String :=
  entries.foldl capabilityStep sigs

/-- extractSignals of signals.js: the sections in source order over an
insertion-ordered signal set, finally spread into an array. -/
def extractSignals (entries : List Entry) : List String :=
  if entries.isEmpty then []
  else
    let s1 := errorSignals entries []
    let s2 := opportunitySignals entries s1
    let s3 := plateauSignals entries s2
    let s4 := toolSignals entries s3
    let s5 := repeatedSignals entries s4
    let s6 := stagnationSignals entries s5
    capabilitySignals entries s6

/-- A non-error assistant message entry. -/
def entAsstOk : Entry :=
  { emptyEntry with
      type := some "message",
      message := some (EntryMessage.obj
        { role := some "assistant", content := MsgContent.other,
          stopReason := none, errorMessage := none }) }

/-- An assistant message entry that stopped with an error. -/
def entAsstErr : Entry :=
  { emptyEntry with
      type := some "message",
      message := some (EntryMessage.obj
        { role := some "assistant", content := MsgContent.other,
          stopReason := some "error", errorMessage := none }) }

/-- Six assistant entries: one success followed by five errors, so the
most recent five responses are all errors but not the whole window. -/
def entriesMixed : List Entry :=
  [entAsstOk, entAsstErr, entAsstErr, entAsstErr, entAsstErr, entAsstErr]

/-- Five assistant entries, all errors. -/
def entriesAllErr : List Entry :=
  [entAsstErr, entAsstErr, entAsstErr, entAsstErr, entAsstErr]

/-! Capability nodes and the tree: src/tree/node.js and
src/tree/capability_tree.js.  The nodes map is an insertion-ordered
association list keyed by node id; timestamps are milliseconds. -/

/-- Node levels. -/
inductive NodeLevel where
  | low
  | mid
  | high
deriving DecidableEq, Repr

/-- Node statuses. -/
inductive NodeStatus where
  | active
  | candidate
  | pruned
deriving DecidableEq, Repr

/-- A capability node as built by createNode. -/
structure CapNode where
  id : String
  name : String
  level : NodeLevel
  parent_id : String
  input : String
  output : String
  preconditions : List String
  failure_boundary : String
  linked_genes : List String
  linked_skills : List String
  children : List String
  status : NodeStatus
  v_score : Option ℚ
  last_triggered : Option ℚ
  trigger_count : Nat
deriving DecidableEq, Repr

/-- The fixed root sentinel (only id, name and children are consumed). -/
structure RootNode where
  id : String
  name : String
  children : List String
deriving DecidableEq, Repr

/-- The persisted tree object: root plus the node map. -/
structure TreeData where
  root : RootNode
  nodes : List (String × CapNode)
deriving DecidableEq, Repr

/-- validateNode of node.js.  The checks on level, status, the array
fields and the trigger count hold by construction in this typed
embedding; the remaining runtime checks are kept. -/
def validateNode (n : CapNode) : Bool × List String :=
  let errors :=
    (if n.id = "" then ["id is required"] else []) ++
    (if n.name = "" then ["name is required"] else []) ++
    (if n.parent_id = "" then ["parent_id is required"] else []) ++
    (match n.v_score with
     | none => []
     | some v => if v < 0 ∨ 100 < v then ["v_score out of range"] else [])
  (errors.isEmpty, errors)

/-- Property read nodes[key] on the node map. -/
def findNode : List (String × CapNode) → String → Option CapNode
  | [], _ => none
  | p :: rest, key => if p.1 = key then some p.2 else findNode rest key

/-- In-place update of the children list of the node stored at key. -/
def updateChildren (nodes : List (String × CapNode)) (key : String)
    (f : List String → List String) : List (String × CapNode) :=
  nodes.map (fun p => if p.1 = key then (p.1, { p.2 with children := f p.2.children }) else p)

/-- JS delete nodes[key]. -/
def eraseKey (nodes : List (String × CapNode)) (key : String) : List (String × CapNode) :=
  nodes.filter (fun p => decide (p.1 ≠ key))

/-- addNode of capability_tree.js: validate, reject a duplicate id, then
attach under the root or an existing parent, else throw. -/
def addNode (t : TreeData) (n : CapNode) : Except String TreeData :=
  if (validateNode n).1 = false then Except.error "Invalid node"
  else if (findNode t.nodes n.id).isSome then Except.error "Node already exists"
  else if n.parent_id = t.root.id then
    Except.ok
      { root := { t.root with children := t.root.children ++ [n.id] },
        nodes := t.nodes ++ [(n.id, n)] }
  else
    match findNode t.nodes n.parent_id with
    | some _ =>
      Except.ok
        { root := t.root,
          nodes := updateChildren t.nodes n.parent_id (fun cs => cs ++ [n.id]) ++ [(n.id, n)] }
    | none => Except.error "Parent node not found"

/-- The tail of the removeNode body once the children are removed: detach
the id from the root or from a still-present parent node, then delete the
entry itself. -/
def removeFinish (t1 : TreeData) (node : CapNode) (id : String) : TreeData :=
  let t2 :=
    if node.parent_id = t1.root.id then
      { root := { t1.root with children := t1.root.children.filter (fun c => decide (c ≠ id)) },
        nodes := t1.nodes }
    else if (findNode t1.nodes node.parent_id).isSome then
      { root := t1.root,
        nodes := updateChildren t1.nodes node.parent_id (fun cs => cs.filter (fun c => decide (c ≠ id))) }
    else t1
  { root := t2.root, nodes := eraseKey t2.nodes id }

/-- removeNode of capability_tree.js, fuel-indexed: remove the children
recursively, detach the id from its parent child list, delete the entry.
The JS recursion terminates on well-formed (acyclic) trees, where a fuel
of one more than the node count always suffices; exhausted fuel returns
the tree unchanged with a false flag. -/
def removeNodeAux : Nat → TreeData → String → TreeData × Bool
  | 0, t, _ => (t, false)
  | fuel + 1, t, id =>
    match findNode t.nodes id with
    | none => (t, false)
    | some node =>
      (removeFinish (node.children.foldl (fun acc c => (removeNodeAux fuel acc c).1) t) node id,
       true)

/-- removeNode with its natural fuel. -/
def removeNode (t : TreeData) (id : String) : TreeData × Bool :=
  removeNodeAux (t.nodes.length + 1) t id

/-- getNode of capability_tree.js: the root sentinel, a stored node, or
null. -/
def getNode (t : TreeData) (id : String) : Option (RootNode ⊕ CapNode) :=
  if id = t.root.id then some (Sum.inl t.root)
  else (findNode t.nodes id).map Sum.inr

/-- The v_score test shared by pruneStale and the pruner: null or below
40. -/
def vScoreLow (o : Option ℚ) : Bool :=
  match o with
  | none => true
  | some v => decide (v < 40)

/-- The per-entry body of the pruneStale loop: skip pruned nodes and nodes
never triggered; mark a stale low-value node pruned.  The boolean reports
whether the id was collected. -/
def pruneEntry (now thresholdMs : ℚ) (p : String × CapNode) : (String × CapNode) × Bool :=
  if p.2.status = NodeStatus.pruned then (p, false)
  else
    match p.2.last_triggered with
    | none => (p, false)
    | some last =>
      if now - last > thresholdMs ∧ vScoreLow p.2.v_score = true then
        ((p.1, { p.2 with status := NodeStatus.pruned }), true)
      else (p, false)

/-- pruneStale of capability_tree.js: the threshold is in days, the clock
in milliseconds; returns the updated tree and the pruned ids. -/
def pruneStale (t : TreeData) (now threshold : ℚ) : TreeData × List String :=
  let thresholdMs := threshold * 24 * 60 * 60 * 1000
  let updated := t.nodes.map (pruneEntry now thresholdMs)
  ({ root := t.root, nodes := updated.map Prod.fst },
   (updated.filter Prod.snd).map (fun q => q.1.1))

/-- The well-formedness invariant addNode maintains, as a decidable check:
the root id is not a node key, and every child reference (from the root or
a node) resolves to a stored node whose parent_id is the referring key. -/
def childOk (nodes : List (String × CapNode)) (c pid : String) : Bool :=
  match findNode nodes c with
  | some child => child.parent_id == pid
  | none => false

/-- Decidable tree well-formedness. -/
def wellFormedB (t : TreeData) : Bool :=
  (findNode t.nodes t.root.id).isNone &&
  t.root.children.all (fun c => childOk t.nodes c t.root.id) &&
  t.nodes.all (fun p => p.2.children.all (fun c => childOk t.nodes c p.1))

/-! Pruner: src/tree/pruner.js. -/

/-- CANDIDATE_PRUNE_DAYS of pruner.js. -/
def CANDIDATE_PRUNE_DAYS : ℚ := 30

/-- AUTO_PRUNE_DAYS of pruner.js. -/
def AUTO_PRUNE_DAYS : ℚ := 60

/-- MERGE_SIMILARITY_THRESHOLD of pruner.js. -/
def MERGE_SIMILARITY_THRESHOLD : ℚ := 4/5

/-- tokenize of pruner.js: lowercase, split on whitespace and dots, drop
empty pieces, collect into a set (here: a deduplicated list). -/
def tokenize (name : String) : List String :=
  ((splitChars (fun c => c.isWhitespace || c == '.') (jsToLower name)).filter
    (fun t => !t.isEmpty)).dedup

/-- jaccardSimilarity of pruner.js over token sets represented as
duplicate-free lists. -/
def jaccardSimilarity (a b : List String) : ℚ :=
  if a.length = 0 ∧ b.length = 0 then 1
  else if a.length = 0 ∨ b.length = 0 then 0
  else
    let inter := ((a.filter (fun x => b.contains x)).length : ℚ)
    let uni := (a.length : ℚ) + (b.length : ℚ) - inter
    if uni = 0 then 0 else inter / uni

/-- daysSinceTriggered of pruner.js; none models the Infinity returned for
a never-triggered node. -/
def daysSinceTriggered (now : ℚ) (n : CapNode) : Option ℚ :=
  match n.last_triggered with
  | none => none
  | some last => some ((now - last) / (24 * 60 * 60 * 1000))

/-- Comparison days > threshold where days may be Infinity. -/
def staleGT (d : Option ℚ) (threshold : ℚ) : Bool :=
  match d with
  | none => true
  | some x => decide (x > threshold)

/-- The prune-classification loop body of analyzePruning: auto wins over
candidate by the if/else ordering. -/
def classifyPrune (now : ℚ) (acc : List CapNode × List CapNode) (n : CapNode) :
    List CapNode × List CapNode :=
  let days := daysSinceTriggered now n
  if staleGT days AUTO_PRUNE_DAYS then (acc.1, acc.2 ++ [n])
  else if staleGT days CANDIDATE_PRUNE_DAYS && vScoreLow n.v_score then
    (acc.1 ++ [n], acc.2)
  else acc

/-- The ordered i < j pair scan of analyzePruning, reporting id pairs with
name similarity strictly above the threshold. -/
def mergePairs : List CapNode → List (String × String)
  | [] => []
  | a :: rest =>
    ((rest.filter (fun b =>
        decide (jaccardSimilarity (tokenize a.name) (tokenize b.name) > MERGE_SIMILARITY_THRESHOLD))).map
      (fun b => (a.id, b.id))) ++ mergePairs rest

/-- The analysis result of analyzePruning. -/
structure PruneAnalysis where
  candidate_prune : List CapNode
  auto_prune : List CapNode
  merge_suggestions : List (String × String)
deriving DecidableEq, Repr

/-- analyzePruning of pruner.js over non-pruned nodes. -/
def analyzePruning (now : ℚ) (nodes : List CapNode) : PruneAnalysis :=
  let activeNodes := nodes.filter (fun n => decide (n.status ≠ NodeStatus.pruned))
  let cl := activeNodes.foldl (classifyPrune now) ([], [])
  { candidate_prune := cl.1, auto_prune := cl.2, merge_suggestions := mergePairs activeNodes }

/-! Value scorer: src/vfm/scorer.js.  Math.log2 is a JS builtin; it is
modelled as an oracle parameter valued in the rationals, applied to the
natural number trigger_count + 1. -/

/-- EVOLUTION_THRESHOLD of scorer.js. -/
def EVOLUTION_THRESHOLD : Int := 40

/-- scoreFrequency of scorer.js: min(log2(count + 1), 10). -/
def scoreFrequency (log2 : Nat → ℚ) (cap : CapNode) : ℚ :=
  min (log2 (cap.trigger_count + 1)) 10

/-- scoreFailReduction of scorer.js: the validation pass rate of capsules
whose gene id is linked from the node, times 10. -/
def scoreFailReduction (cap : CapNode) (capsules : List Capsule) : ℚ :=
  if capsules.isEmpty then 0
  else
    let related := capsules.filter (fun c =>
      match c.gene_id with
      | some g => cap.linked_genes.contains g
      | none => false)
    if related.isEmpty then 0
    else ((related.filter capsulePassed).length : ℚ) / (related.length : ℚ) * 10

/-- scoreUserBurden of scorer.js: 2 per linked skill capped at 6, plus
4 minus the precondition count floored at 0, capped at 10. -/
def scoreUserBurden (cap : CapNode) : ℚ :=
  let skillCount := cap.linked_skills.length
  let precondCount := cap.preconditions.length
  let score := min ((skillCount : ℚ) * 2) 6 + max (4 - (precondCount : ℚ)) 0
  min score 10

/-- The last stored gene under an id: the gene map of scorer.js is built
front to back, so a later duplicate overwrites an earlier one. -/
def findGeneById (genes : List Gene) (gid : String) : Option Gene :=
  genes.foldl (fun acc g => if g.id = gid then some g else acc) none

/-- The JS (constraints and constraints.max_files) or 12 default — a falsy
max_files (absent or zero) becomes 12. -/
def maxFilesOr12 (g : Gene) : ℚ :=
  match g.constraints.max_files with
  | some m => if m = 0 then 12 else m
  | none => 12

/-- scoreSelfCost of scorer.js, with the gene store passed in. -/
def scoreSelfCost (cap : CapNode) (genes : List Gene) : ℚ :=
  if cap.linked_genes.isEmpty then 5
  else
    let resolved := cap.linked_genes.filterMap (findGeneById genes)
    if resolved.isEmpty then 5
    else
      let totalSteps := ((resolved.map (fun g => (g.strategy.length : ℚ))).sum)
      let totalMaxFiles := ((resolved.map maxFilesOr12).sum)
      let geneCount := (resolved.length : ℚ)
      let avgSteps := totalSteps / geneCount
      let avgMaxFiles := totalMaxFiles / geneCount
      let stepScore := max (10 - avgSteps) 0
      let fileScore := max (10 - avgMaxFiles / 2) 0
      min ((stepScore + fileScore) / 2) 10

/-- The default VFM weights of scorer.js. -/
def DEFAULT_VFM_WEIGHTS : VWeights :=
  { frequency := 3, failReduce := 3, userBurden := 2, selfCost := 2 }

/-- The weight sum used as the normalization base. -/
def vWeightSum (w : VWeights) : ℚ :=
  w.frequency + w.failReduce + w.userBurden + w.selfCost

/-- JS Math.round on a finite value: floor of the value plus one half. -/
def roundHalfUp (q : ℚ) : Int :=
  Int.floor (q + 1/2)

/-- computeVScore of scorer.js: weighted sub-scores normalized by ten
times the weight sum, scaled to 0-100, clamped and rounded. -/
def computeVScore (log2 : Nat → ℚ) (cap : CapNode) (capsules : List Capsule)
    (genes : List Gene) (weights : Option VWeights) : Int :=
  let w := weights.getD DEFAULT_VFM_WEIGHTS
  let frequency := scoreFrequency log2 cap * w.frequency
  let failReduce := scoreFailReduction cap capsules * w.failReduce
  let userBurden := scoreUserBurden cap * w.userBurden
  let selfCost := scoreSelfCost cap genes * w.selfCost
  let totalWeight := vWeightSum w
  let maxScore := 10 * totalWeight
  let rawScore := frequency + failReduce + userBurden + selfCost
  let normalized := rawScore / maxScore * 100
  roundHalfUp (min (max normalized 0) 100)

/-- isWorthEvolving of scorer.js. -/
def isWorthEvolving (score : Int) : Bool :=
  decide (EVOLUTION_THRESHOLD ≤ score)

/-! PCEC cycle: src/pcec/cycle.js. -/

/-- SUBSTANTIVE_TYPES of cycle.js. -/
def SUBSTANTIVE_TYPES : List String :=
  ["capability", "abstraction", "leverage"]

/-- EXCLUDE_KEYWORDS of cycle.js (filler phrases). -/
def EXCLUDE_KEYWORDS : List String :=
  ["总结", "回顾", "复述", "没有明显", "格式", "措辞"]

/-- A recorded cycle outcome as stored by addOutcome. -/
structure Outcome where
  type : String
  description : String
deriving DecidableEq, Repr

/-- addOutcome of cycle.js: defaults the type to unknown and the
description to the empty string. -/
def addOutcome (outcomes : List Outcome) (otype odescr : Option String) : List Outcome :=
  outcomes ++
    [{ type := match otype with | some s => if s.isEmpty then "unknown" else s | none => "unknown",
       description := match odescr with | some s => s | none => "" }]

/-- JS String.includes: contiguous substring containment. -/
def strIncludes (s kw : String) : Bool :=
  decide (kw.toList <:+: s.toList)

/-- hasSubstantiveOutcome of cycle.js: some outcome of a recognized type
whose description is a non-empty string free of every filler phrase. -/
def hasSubstantiveOutcome (outcomes : List Outcome) : Bool :=
  if outcomes.isEmpty then false
  else
    let validTypeOutcomes := outcomes.filter (fun o => decide (o.type ∈ SUBSTANTIVE_TYPES))
    if validTypeOutcomes.isEmpty then false
    else
      let substantiveOutcomes := validTypeOutcomes.filter (fun o =>
        if o.description.isEmpty then false
        else !(EXCLUDE_KEYWORDS.any (fun kw => strIncludes o.description kw)))
      !substantiveOutcomes.isEmpty

/-! Concrete fixtures used by the verification theorems. -/

/-- A plain active capability node with every optional field unset. -/
def baseNode : CapNode :=
  { id := "cap.x", name := "X", level := NodeLevel.low, parent_id := "cap",
    input := "", output := "", preconditions := [], failure_boundary := "",
    linked_genes := [], linked_skills := [], children := [],
    status := NodeStatus.active, v_score := none, last_triggered := none,
    trigger_count := 0 }

/-- The first node of the name-similarity test pair. -/
def nodeRich : CapNode :=
  { baseNode with id := "cap.rich", name := "Rich Messaging Handler" }

/-- The second node of the name-similarity test pair. -/
def nodeHandler : CapNode :=
  { baseNode with id := "cap.handler", name := "Handler for rich messaging" }

/-- A repair mutation proposal. -/
def mutRepair : Mutation :=
  { category := MutCategory.repair, trigger_signals := [], target := "t",
    expected_effect := "e", gene_id := none }

/-- An innovate mutation proposal. -/
def mutInnovate : Mutation :=
  { category := MutCategory.innovate, trigger_signals := [], target := "t",
    expected_effect := "e", gene_id := none }

/-- A repair gene requiring exactly the log_error signal. -/
def gC7 : Gene :=
  { id := "gene_1", category := MutCategory.repair, signals_match := ["log_error"],
    preconditions := [], strategy := ["fix"],
    constraints := { max_files := some 12, forbidden_paths := [".git", "node_modules"] },
    validation := [], capability_node_id := none, v_score := none }

/-- A tree node with one child. -/
def nA : CapNode :=
  { baseNode with id := "cap.a", name := "A", parent_id := "cap", children := ["cap.a.x"] }

/-- A leaf node under nA. -/
def nAX : CapNode :=
  { baseNode with id := "cap.a.x", name := "AX", parent_id := "cap.a" }

/-- A small well-formed tree: root cap with child cap.a, which has child
cap.a.x. -/
def tWF : TreeData :=
  { root := { id := "cap", name := "Root", children := ["cap.a"] },
    nodes := [("cap.a", nA), ("cap.a.x", nAX)] }

/-- A node whose declared parent exists nowhere in tWF. -/
def nOrphan : CapNode :=
  { baseNode with id := "cap.orphan", name := "Orphan", parent_id := "nonexistent" }

/-- An outcome list with a recognized type but an empty description. -/
def outcomesC9 : List Outcome :=
  [{ type := "capability", description := "" }]

/-- Equality of every capability-node field except status. -/
def sameExceptStatus (a b : CapNode) : Prop :=
  b.id = a.id ∧ b.name = a.name ∧ b.level = a.level ∧ b.parent_id = a.parent_id ∧
  b.input = a.input ∧ b.output = a.output ∧ b.preconditions = a.preconditions ∧
  b.failure_boundary = a.failure_boundary ∧ b.linked_genes = a.linked_genes ∧
  b.linked_skills = a.linked_skills ∧ b.children = a.children ∧
  b.v_score = a.v_score ∧ b.last_triggered = a.last_triggered ∧
  b.trigger_count = a.trigger_count

/-- One tree refines another by deleting nodes and child references while
keeping the root id: the relation removeNode steps preserve. -/
def Shrinks (a b : TreeData) : Prop :=
  a.root.id = b.root.id ∧
  (∀ c, c ∈ a.root.children → c ∈ b.root.children) ∧
  (∀ k m, (k, m) ∈ a.nodes → ∃ m0, (k, m0) ∈ b.nodes ∧ ∀ c, c ∈ m.children → c ∈ m0.children)

/-! Theorems.  Claim C1: risk assessment. -/

/-- C1 counterexample: a repair mutation touching 1 file and 501 lines
exceeds the 500-line bound, yet assessRisk keeps the base risk low; the
claim that risk escalates to medium whenever lines exceed 500 is false. -/
theorem assessRisk_c1_counterexample :
    (501 : Int) > 500 ∧ (assessRisk mutRepair { files := 1, lines := 501 }).1 ≠ RiskLevel.medium := by
  decide

/-- C1 amended: the returned risk is medium exactly when files exceed 10
or the category is innovate with files exceeding 5; the 500-line bound
only appends a warning (for each trigger the matching warning is
appended). -/
theorem assessRisk_escalation_spec (m : Mutation) (b : Blast) :
    (assessRisk m b).1 =
      (if b.files > 10 ∨ (m.category = MutCategory.innovate ∧ b.files > 5) then RiskLevel.medium
       else RISK_MAP m.category) ∧
    (b.lines > 500 → ("Large change: " ++ toString b.lines ++ " lines") ∈ (assessRisk m b).2) ∧
    (b.files > 10 → ("High blast radius: " ++ toString b.files ++ " files") ∈ (assessRisk m b).2) ∧
    (m.category = MutCategory.innovate ∧ b.files > 5 →
      "Innovation with wide blast radius" ∈ (assessRisk m b).2) := by
  by_cases h1 : b.files > 10 <;>
    by_cases h2 : b.lines > 500 <;>
      by_cases h3 : m.category = MutCategory.innovate ∧ b.files > 5 <;>
        simp [assessRisk, h1, h2, h3, List.mem_append]

/-- C1 witness: the amended theorem applied to an innovate mutation with
blast 11 files and 501 lines. -/
theorem assessRisk_escalation_spec_witness :
    (assessRisk mutInnovate { files := 11, lines := 501 }).1 = RiskLevel.medium ∧
    ("Large change: " ++ toString (501 : Int) ++ " lines") ∈
      (assessRisk mutInnovate { files := 11, lines := 501 }).2 ∧
    ("High blast radius: " ++ toString (11 : Int) ++ " files") ∈
      (assessRisk mutInnovate { files := 11, lines := 501 }).2 ∧
    "Innovation with wide blast radius" ∈ (assessRisk mutInnovate { files := 11, lines := 501 }).2 := by
  have h := assessRisk_escalation_spec mutInnovate { files := 11, lines := 501 }
  exact ⟨h.1.trans (by decide), h.2.1 (by decide), h.2.2.1 (by decide), h.2.2.2 (by decide)⟩

/-! Claim C2: store corruption handling. -/

/-- C2 counterexample: on unparsable content JSON.parse throws and
loadGenes propagates the error instead of returning the empty
collection. -/
theorem store_c2_counterexample :
    loadGenes parseAlwaysFails (some "not json") = Except.error "SyntaxError" ∧
    loadGenes parseAlwaysFails (some "not json") ≠ Except.ok (Json.arr []) := by
  constructor
  · rfl
  · intro h
    rw [show loadGenes parseAlwaysFails (some "not json") = Except.error "SyntaxError" from rfl] at h
    exact Except.noConfusion h

/-- C2 amended: a missing or blank store file loads as the empty
collection, but a parse failure on non-blank content propagates out of
every loader. -/
theorem store_corruption_propagates (parse : String → Except String Json) (e : String) :
    (loadGenes parse none = Except.ok (Json.arr []) ∧
     loadCapsules parse none = Except.ok (Json.arr []) ∧
     loadCapabilityTree parse none = Except.ok (Json.arr []) ∧
     loadEvents parse none = Except.ok [] ∧
     loadGenes parse (some "  ") = Except.ok (Json.arr [])) ∧
    (parse "not json" = Except.error e →
      loadGenes parse (some "not json") = Except.error e ∧
      loadCapsules parse (some "not json") = Except.error e ∧
      loadCapabilityTree parse (some "not json") = Except.error e ∧
      loadEvents parse (some "not json") = Except.error e) := by
  have htrim : jsTrim "not json" = "not json" := by decide
  have hne : (jsTrim "not json" = "") = False := by simp [htrim]
  have hext : jsEndsWith "genes.json" ".json" = true := by decide
  constructor
  · refine ⟨rfl, rfl, rfl, rfl, ?_⟩
    have h2 : jsTrim "  " = "" := by decide
    simp [loadGenes, readJSON, h2, emptyFor, hext]
  · intro hp
    have hlines : ((splitChars (fun c => c == '\n') (jsTrim "not json")).filter
        (fun l => !l.isEmpty)) = ["not json"] := by
      decide
    refine ⟨?_, ?_, ?_, ?_⟩
    · simp [loadGenes, readJSON, hne, htrim, hp]
    · simp [loadCapsules, readJSON, hne, htrim, hp]
    · simp [loadCapabilityTree, readJSON, hne, htrim, hp]
    · rw [loadEvents, readJSONL]
      rw [if_neg (by simp [htrim])]
      rw [hlines]
      simp only [List.mapM, List.mapM.loop, hp]
      rfl

/-- C2 witness: the amended theorem at the concrete failing parse. -/
theorem store_corruption_propagates_witness :
    loadGenes parseAlwaysFails none = Except.ok (Json.arr []) ∧
    loadGenes parseAlwaysFails (some "not json") = Except.error "SyntaxError" ∧
    loadEvents parseAlwaysFails (some "not json") = Except.error "SyntaxError" := by
  have h := store_corruption_propagates parseAlwaysFails "SyntaxError"
  exact ⟨h.1.1, (h.2 rfl).1, (h.2 rfl).2.2.2⟩

/-! Claim C4: pruner name similarity. -/

/-- The token-set similarity of the two test names is exactly 3/4. -/
theorem jaccard_rich_handler :
    jaccardSimilarity (tokenize "Rich Messaging Handler") (tokenize "Handler for rich messaging") =
      3/4 := by
  have ht1 : tokenize "Rich Messaging Handler" = ["rich", "messaging", "handler"] := by decide
  have ht2 : tokenize "Handler for rich messaging" = ["handler", "for", "rich", "messaging"] := by
    decide
  have hint : (["rich", "messaging", "handler"].filter
      (fun x => ["handler", "for", "rich", "messaging"].contains x)).length = 3 := by decide
  simp only [jaccardSimilarity, ht1, ht2, hint]
  norm_num

/-- analyzePruning reports no merge suggestion for the test pair. -/
theorem mergeSuggestions_rich_handler_nil :
    (analyzePruning 0 [nodeRich, nodeHandler]).merge_suggestions = [] := by
  have hj : jaccardSimilarity (tokenize nodeRich.name) (tokenize nodeHandler.name) = 3/4 := by
    have h1 : nodeRich.name = "Rich Messaging Handler" := rfl
    have h2 : nodeHandler.name = "Handler for rich messaging" := rfl
    rw [h1, h2, jaccard_rich_handler]
  have hfalse : decide (jaccardSimilarity (tokenize nodeRich.name) (tokenize nodeHandler.name) >
      MERGE_SIMILARITY_THRESHOLD) = false := by
    rw [hj]
    exact decide_eq_false (by norm_num [MERGE_SIMILARITY_THRESHOLD])
  have hact : ([nodeRich, nodeHandler].filter (fun n => decide (n.status ≠ NodeStatus.pruned))) =
      [nodeRich, nodeHandler] := by decide
  simp only [analyzePruning]
  rw [hact]
  simp only [mergePairs, List.filter_cons, List.filter_nil, hfalse, Bool.false_eq_true,
    if_false, List.map_nil, List.nil_append, List.append_nil]

/-- C4 counterexample: the two non-pruned nodes named Rich Messaging
Handler and Handler for rich messaging are not reported as a merge
suggestion. -/
theorem pruner_c4_counterexample :
    nodeRich.status ≠ NodeStatus.pruned ∧ nodeHandler.status ≠ NodeStatus.pruned ∧
    (nodeRich.id, nodeHandler.id) ∉ (analyzePruning 0 [nodeRich, nodeHandler]).merge_suggestions := by
  refine ⟨by decide, by decide, ?_⟩
  rw [mergeSuggestions_rich_handler_nil]
  exact List.not_mem_nil _

/-- C4 amended: the token-set similarity of the pair is 3/4, which does
not exceed the strict 0.8 threshold, so analyzePruning reports no merge
suggestion for these two nodes. -/
theorem pruner_name_similarity_spec :
    jaccardSimilarity (tokenize "Rich Messaging Handler") (tokenize "Handler for rich messaging") =
      3/4 ∧
    ¬ ((3 : ℚ)/4 > MERGE_SIMILARITY_THRESHOLD) ∧
    (analyzePruning 0 [nodeRich, nodeHandler]).merge_suggestions = [] :=
  ⟨jaccard_rich_handler, by norm_num [MERGE_SIMILARITY_THRESHOLD],
   mergeSuggestions_rich_handler_nil⟩

/-! Claim C9: substantive PCEC outcomes. -/

/-- C9 counterexample: an outcome recorded with a recognized type and no
description satisfies the claimed characterization (its description
contains no filler phrase) yet the cycle is not judged substantive. -/
theorem pcec_c9_counterexample :
    addOutcome [] (some "capability") none = outcomesC9 ∧
    (∃ o ∈ outcomesC9, o.type ∈ SUBSTANTIVE_TYPES ∧
      ∀ kw ∈ EXCLUDE_KEYWORDS, ¬ (kw.toList <:+: o.description.toList)) ∧
    hasSubstantiveOutcome outcomesC9 = false := by
  exact ⟨by decide, by decide, by decide⟩

/-- The substantive filter of one outcome, characterized. -/
theorem substantivePred_true_iff (o : Outcome) :
    ((if o.description.isEmpty then false
      else !(EXCLUDE_KEYWORDS.any (fun kw => strIncludes o.description kw))) = true) ↔
    (o.description ≠ "" ∧ ∀ kw ∈ EXCLUDE_KEYWORDS, ¬ (kw.toList <:+: o.description.toList)) := by
  by_cases hd : o.description.isEmpty
  · have hdesc : o.description = "" := (String.isEmpty_iff _).mp hd
    rw [if_pos hd]
    constructor
    · intro h
      simp at h
    · rintro ⟨hne, -⟩
      exact absurd hdesc hne
  · have hne : o.description ≠ "" := fun h => hd (by rw [h]; decide)
    rw [if_neg hd]
    simp only [Bool.not_eq_true', List.any_eq_false, strIncludes, decide_eq_true_eq]
    constructor
    · intro h
      exact ⟨hne, h⟩
    · rintro ⟨-, h⟩
      exact h

/-- hasSubstantiveOutcome rewritten as a non-emptiness test of the two
nested filters (the early-return guards coincide with empty filters). -/
theorem hasSubstantiveOutcome_eq_filter (outcomes : List Outcome) :
    hasSubstantiveOutcome outcomes =
      !(((outcomes.filter (fun o => decide (o.type ∈ SUBSTANTIVE_TYPES))).filter (fun o =>
          if o.description.isEmpty then false
          else !(EXCLUDE_KEYWORDS.any (fun kw => strIncludes o.description kw)))).isEmpty) := by
  unfold hasSubstantiveOutcome
  by_cases hemp : outcomes.isEmpty
  · rw [List.isEmpty_iff] at hemp
    subst hemp
    simp
  · simp only [hemp, Bool.false_eq_true, if_false]
    by_cases hval : (outcomes.filter (fun o => decide (o.type ∈ SUBSTANTIVE_TYPES))).isEmpty
    · rw [if_pos hval]
      rw [List.isEmpty_iff] at hval
      rw [hval]
      simp
    · rw [if_neg hval]

/-- C9 amended: a cycle is substantive exactly when some outcome has a
recognized type and a non-empty description containing no excluded filler
phrase; a cycle with no outcomes is never substantive. -/
theorem hasSubstantiveOutcome_iff (outcomes : List Outcome) :
    (hasSubstantiveOutcome outcomes = true ↔
      ∃ o ∈ outcomes, o.type ∈ SUBSTANTIVE_TYPES ∧ o.description ≠ "" ∧
        ∀ kw ∈ EXCLUDE_KEYWORDS, ¬ (kw.toList <:+: o.description.toList)) ∧
    hasSubstantiveOutcome [] = false := by
  refine ⟨?_, rfl⟩
  rw [hasSubstantiveOutcome_eq_filter]
  constructor
  · intro h
    have hne : ((outcomes.filter (fun o => decide (o.type ∈ SUBSTANTIVE_TYPES))).filter (fun o =>
        if o.description.isEmpty then false
        else !(EXCLUDE_KEYWORDS.any (fun kw => strIncludes o.description kw)))) ≠ [] := by
      intro hnil
      rw [hnil] at h
      simp at h
    obtain ⟨o, ho⟩ := List.exists_mem_of_ne_nil _ hne
    rw [List.mem_filter] at ho
    obtain ⟨ho1, hp2⟩ := ho
    rw [List.mem_filter] at ho1
    obtain ⟨hoo, hp1⟩ := ho1
    refine ⟨o, hoo, by simpa using hp1, (substantivePred_true_iff o).mp hp2⟩
  · rintro ⟨o, hoo, hty, hdesc, hkw⟩
    have hmem : o ∈ ((outcomes.filter (fun o => decide (o.type ∈ SUBSTANTIVE_TYPES))).filter
        (fun o => if o.description.isEmpty then false
          else !(EXCLUDE_KEYWORDS.any (fun kw => strIncludes o.description kw)))) := by
      rw [List.mem_filter]
      exact ⟨List.mem_filter.mpr ⟨hoo, by simpa using hty⟩,
        (substantivePred_true_iff o).mpr ⟨hdesc, hkw⟩⟩
    cases hcase : ((outcomes.filter (fun o => decide (o.type ∈ SUBSTANTIVE_TYPES))).filter
        (fun o => if o.description.isEmpty then false
          else !(EXCLUDE_KEYWORDS.any (fun kw => strIncludes o.description kw)))).isEmpty with
    | false => rfl
    | true =>
      rw [List.isEmpty_iff] at hcase
      rw [hcase] at hmem
      exact absurd hmem (List.not_mem_nil o)

/-! Claim C5: weight mutator bounds and failure-reduction monotonicity. -/

/-- clampWeight lands in the weight range. -/
theorem clampWeight_mem (x : ℚ) :
    WEIGHT_MIN ≤ clampWeight x ∧ clampWeight x ≤ WEIGHT_MAX := by
  constructor
  · exact le_min (le_max_right x WEIGHT_MIN) (by norm_num [WEIGHT_MIN, WEIGHT_MAX])
  · exact min_le_right _ _

/-- clampWeight does not drop below an in-range lower bound. -/
theorem clampWeight_ge (fr x : ℚ) (h5 : fr ≤ WEIGHT_MAX) (hx : fr ≤ x) :
    fr ≤ clampWeight x :=
  le_min (hx.trans (le_max_left x WEIGHT_MIN)) h5

/-- An all-failing nonempty batch has success rate zero. -/
theorem computeSuccessRate_all_fail (c : Capsule) (cs : List Capsule)
    (hall : (c :: cs).all (fun c => !capsulePassed c) = true) :
    computeSuccessRate (c :: cs) = 0 := by
  have hfilter : List.filter capsulePassed (c :: cs) = [] := by
    rw [List.filter_eq_nil_iff]
    intro a ha
    have h := (List.all_eq_true.mp hall) a ha
    rw [Bool.not_eq_true'] at h
    simp [h]
  rw [computeSuccessRate]
  simp [hfilter]

/-- C5 counterexample: with an out-of-range input failure-reduction weight
of 10 and a 100 percent failing batch, the output failure-reduction weight
is clamped to 5, strictly below the input; the claim fails for such input
weight records. -/
theorem mutateWeights_c5_counterexample :
    ([cFail].all (fun c => !capsulePassed c) = true) ∧
    (mutateWeights { frequency := 3, failReduce := 10, userBurden := 2, selfCost := 2 }
      [cFail] []).failReduce < 10 := by
  refine ⟨by decide, ?_⟩
  have h0 : computeSuccessRate [cFail] = 0 :=
    computeSuccessRate_all_fail cFail [] (by decide)
  have hlow : isLowInnovation [cFail] = false := rfl
  have hgrow : hasCapabilityGrowth [] = false := rfl
  simp only [mutateWeights, h0, hlow, hgrow]
  norm_num [HIGH_SUCCESS_THRESHOLD, HIGH_FAIL_THRESHOLD, MAX_ADJUSTMENT, clampWeight,
    WEIGHT_MIN, WEIGHT_MAX, min_def, max_def]

/-- C5 amended: every output weight of mutateWeights lies in [1, 5] for
arbitrary inputs, and a 100 percent failing recent-capsule batch never
lowers the failure-reduction weight provided the input failure-reduction
weight does not exceed its invariant upper bound 5. -/
theorem mutateWeights_bounds_and_failReduce (w : VWeights) (caps : List Capsule)
    (evs : List EvoEvent) :
    (WEIGHT_MIN ≤ (mutateWeights w caps evs).frequency ∧
     (mutateWeights w caps evs).frequency ≤ WEIGHT_MAX ∧
     WEIGHT_MIN ≤ (mutateWeights w caps evs).failReduce ∧
     (mutateWeights w caps evs).failReduce ≤ WEIGHT_MAX ∧
     WEIGHT_MIN ≤ (mutateWeights w caps evs).userBurden ∧
     (mutateWeights w caps evs).userBurden ≤ WEIGHT_MAX ∧
     WEIGHT_MIN ≤ (mutateWeights w caps evs).selfCost ∧
     (mutateWeights w caps evs).selfCost ≤ WEIGHT_MAX) ∧
    (caps.all (fun c => !capsulePassed c) = true → w.failReduce ≤ WEIGHT_MAX →
      w.failReduce ≤ (mutateWeights w caps evs).failReduce) := by
  constructor
  · exact ⟨(clampWeight_mem _).1, (clampWeight_mem _).2, (clampWeight_mem _).1,
      (clampWeight_mem _).2, (clampWeight_mem _).1, (clampWeight_mem _).2,
      (clampWeight_mem _).1, (clampWeight_mem _).2⟩
  · intro hall h5
    cases caps with
    | nil =>
      have h1 : computeSuccessRate [] = 1 := rfl
      have h2 : isLowInnovation [] = false := rfl
      simp only [mutateWeights, h1, h2]
      norm_num [HIGH_FAIL_THRESHOLD]
      split_ifs <;> exact clampWeight_ge _ _ h5 le_rfl
    | cons c cs =>
      have h0 : computeSuccessRate (c :: cs) = 0 := computeSuccessRate_all_fail c cs hall
      simp only [mutateWeights, h0]
      norm_num [HIGH_SUCCESS_THRESHOLD, HIGH_FAIL_THRESHOLD]
      split_ifs <;>
        exact clampWeight_ge _ _ h5 (by simp only [MAX_ADJUSTMENT]; linarith)

/-- C5 witness: the amended theorem at the default weights and a single
failing capsule. -/
theorem mutateWeights_bounds_witness :
    (WEIGHT_MIN ≤ (mutateWeights { frequency := 3, failReduce := 3, userBurden := 2, selfCost := 2 }
        [cFail] []).frequency ∧
     (mutateWeights { frequency := 3, failReduce := 3, userBurden := 2, selfCost := 2 }
        [cFail] []).frequency ≤ WEIGHT_MAX ∧
     WEIGHT_MIN ≤ (mutateWeights { frequency := 3, failReduce := 3, userBurden := 2, selfCost := 2 }
        [cFail] []).failReduce ∧
     (mutateWeights { frequency := 3, failReduce := 3, userBurden := 2, selfCost := 2 }
        [cFail] []).failReduce ≤ WEIGHT_MAX ∧
     WEIGHT_MIN ≤ (mutateWeights { frequency := 3, failReduce := 3, userBurden := 2, selfCost := 2 }
        [cFail] []).userBurden ∧
     (mutateWeights { frequency := 3, failReduce := 3, userBurden := 2, selfCost := 2 }
        [cFail] []).userBurden ≤ WEIGHT_MAX ∧
     WEIGHT_MIN ≤ (mutateWeights { frequency := 3, failReduce := 3, userBurden := 2, selfCost := 2 }
        [cFail] []).selfCost ∧
     (mutateWeights { frequency := 3, failReduce := 3, userBurden := 2, selfCost := 2 }
        [cFail] []).selfCost ≤ WEIGHT_MAX) ∧
    (3 : ℚ) ≤ (mutateWeights { frequency := 3, failReduce := 3, userBurden := 2, selfCost := 2 }
        [cFail] []).failReduce := by
  have h := mutateWeights_bounds_and_failReduce
    { frequency := 3, failReduce := 3, userBurden := 2, selfCost := 2 } [cFail] []
  exact ⟨h.1, h.2 (by decide) (by norm_num [WEIGHT_MAX])⟩

/-! Claim C6: V-Score bounds and the evolution threshold. -/

/-- A clamped then rounded rational lands in the integer range 0 to 100. -/
theorem roundHalfUp_clamp_bounds (q : ℚ) :
    0 ≤ roundHalfUp (min (max q 0) 100) ∧ roundHalfUp (min (max q 0) 100) ≤ 100 := by
  have h0 : (0 : ℚ) ≤ min (max q 0) 100 := le_min (le_max_right q 0) (by norm_num)
  have h1 : min (max q 0) 100 ≤ 100 := min_le_right _ _
  constructor
  · rw [roundHalfUp]
    exact Int.le_floor.mpr (by push_cast; linarith)
  · rw [roundHalfUp]
    have hlt : Int.floor (min (max q 0) 100 + 1/2) < 101 := Int.floor_lt.mpr (by push_cast; linarith)
    omega

/-- C6: computeVScore is an integer in [0, 100] whenever the weight sum is
nonzero (as with the default weights; a zero sum is degenerate in the
source as well), and the worth-evolving threshold is exactly 40. -/
theorem computeVScore_bounds (log2 : Nat → ℚ) (cap : CapNode) (capsules : List Capsule)
    (genes : List Gene) (weights : Option VWeights)
    (_hw : vWeightSum (weights.getD DEFAULT_VFM_WEIGHTS) ≠ 0) :
    (0 ≤ computeVScore log2 cap capsules genes weights ∧
     computeVScore log2 cap capsules genes weights ≤ 100) ∧
    isWorthEvolving 39 = false ∧ isWorthEvolving 40 = true := by
  refine ⟨⟨?_, ?_⟩, by decide, by decide⟩
  · exact (roundHalfUp_clamp_bounds _).1
  · exact (roundHalfUp_clamp_bounds _).2

/-- C6 witness: the bound theorem at a concrete capability and the default
weights, whose sum is 10. -/
theorem computeVScore_bounds_witness :
    (0 ≤ computeVScore (fun _ => 0) baseNode [] [] none ∧
     computeVScore (fun _ => 0) baseNode [] [] none ≤ 100) ∧
    isWorthEvolving 39 = false ∧ isWorthEvolving 40 = true :=
  computeVScore_bounds (fun _ => 0) baseNode [] [] none
    (by norm_num [vWeightSum, DEFAULT_VFM_WEIGHTS])

/-! Claim C7: the selector respects the minimum score. -/

/-- The running best of the selector fold is one of the candidates. -/
theorem pickTopScored_mem (xs : List (Gene × ℚ)) :
    ∀ x, pickTopScored x xs ∈ x :: xs := by
  induction xs with
  | nil =>
    intro x
    simp [pickTopScored]
  | cons y ys ih =>
    intro x
    have h := ih (if x.2 < y.2 then y else x)
    simp only [pickTopScored, List.foldl_cons] at h ⊢
    rcases List.mem_cons.mp h with h1 | h1
    · rw [h1]
      by_cases hc : x.2 < y.2
      · rw [if_pos hc]
        exact List.mem_cons_of_mem _ (List.mem_cons_self _ _)
      · rw [if_neg hc]
        exact List.mem_cons_self _ _
    · exact List.mem_cons_of_mem _ (List.mem_cons_of_mem _ h1)

/-- C7: selectGene returns none on an empty signal set, and any returned
gene scores at least minScore (matchScore plus the category bonus). -/
theorem selectGene_respects_minScore (genes : List Gene) (signals : List String)
    (preferCategory : Option MutCategory) (minScore : ℚ) (g : Gene) :
    selectGene genes [] preferCategory minScore = none ∧
    (selectGene genes signals preferCategory minScore = some g →
      minScore ≤ geneScore g signals preferCategory) := by
  constructor
  · simp [selectGene]
  · intro h
    simp only [selectGene] at h
    by_cases hs : signals.isEmpty
    · rw [if_pos hs] at h
      cases h
    rw [if_neg hs] at h
    by_cases hg : genes.isEmpty
    · rw [if_pos hg] at h
      cases h
    rw [if_neg hg] at h
    cases hfil : (genes.map (fun g => (g, geneScore g signals preferCategory))).filter
        (fun p => decide (minScore ≤ p.2)) with
    | nil =>
      rw [hfil] at h
      cases h
    | cons x xs =>
      rw [hfil] at h
      have hgx : (pickTopScored x xs).1 = g := by
        simpa using h
      have hmem : pickTopScored x xs ∈ x :: xs := pickTopScored_mem xs x
      rw [← hfil, List.mem_filter] at hmem
      obtain ⟨hmem1, hmem2⟩ := hmem
      rw [List.mem_map] at hmem1
      obtain ⟨a, _, hae⟩ := hmem1
      rw [← hgx, ← hae]
      rw [← hae] at hmem2
      simpa using hmem2

/-- C7 witness: with one repair gene matching the one present signal the
selector picks it, and its score meets the default threshold. -/
theorem selectGene_respects_minScore_witness :
    selectGene [gC7] [] none (3/10) = none ∧
    (3/10 : ℚ) ≤ geneScore gC7 ["log_error"] none := by
  have hsc : geneScore gC7 ["log_error"] none = 1 := by
    simp only [geneScore, matchScore, gC7]
    norm_num
  have hsel : selectGene [gC7] ["log_error"] none (3/10) = some gC7 := by
    simp only [selectGene, List.map_cons, List.map_nil, List.filter_cons, List.filter_nil, hsc]
    norm_num [pickTopScored]
  exact ⟨(selectGene_respects_minScore [gC7] [] none (3/10) gC7).1,
         (selectGene_respects_minScore [gC7] ["log_error"] none (3/10) gC7).2 hsel⟩

/-! Claim C10: pruneStale never touches untriggered nodes and only ever
changes a status. -/

/-- pruneEntry either keeps the entry or only marks its status pruned. -/
theorem pruneEntry_cases (now th : ℚ) (p : String × CapNode) :
    pruneEntry now th p = (p, false) ∨
    pruneEntry now th p = ((p.1, { p.2 with status := NodeStatus.pruned }), true) := by
  rw [pruneEntry]
  split
  · exact Or.inl rfl
  · split
    · exact Or.inl rfl
    · split
      · exact Or.inr rfl
      · exact Or.inl rfl

/-- pruneEntry preserves the map key. -/
theorem pruneEntry_key (now th : ℚ) (p : String × CapNode) :
    (pruneEntry now th p).1.1 = p.1 := by
  rcases pruneEntry_cases now th p with h | h <;> rw [h]

/-- An entry whose node has never been triggered passes through pruneEntry
unchanged and unmarked. -/
theorem pruneEntry_untriggered (now th : ℚ) (p : String × CapNode)
    (h : p.2.last_triggered = none) : pruneEntry now th p = (p, false) := by
  rw [pruneEntry]
  split
  · rfl
  · rw [h]

/-- pruneEntry changes nothing but the status field. -/
theorem pruneEntry_sameExceptStatus (now th : ℚ) (p : String × CapNode) :
    sameExceptStatus p.2 (pruneEntry now th p).1.2 := by
  rcases pruneEntry_cases now th p with h | h <;> rw [h] <;> simp [sameExceptStatus]

/-- Two entries of a map with duplicate-free keys and the same key hold
the same node. -/
theorem nodupKeys_unique {l : List (String × CapNode)} (hnd : (l.map Prod.fst).Nodup)
    {k : String} {a b : CapNode} (ha : (k, a) ∈ l) (hb : (k, b) ∈ l) : a = b := by
  induction l with
  | nil => cases ha
  | cons p rest ih =>
    rw [List.map_cons, List.nodup_cons] at hnd
    rcases List.mem_cons.mp ha with h1 | h1 <;> rcases List.mem_cons.mp hb with h2 | h2
    · have h12 := h1.trans h2.symm
      exact (Prod.mk.injEq _ _ _ _ |>.mp h12).2
    · exfalso
      apply hnd.1
      rw [← h1]
      exact List.mem_map.mpr ⟨(k, b), h2, rfl⟩
    · exfalso
      apply hnd.1
      rw [← h2]
      exact List.mem_map.mpr ⟨(k, a), h1, rfl⟩
    · exact ih hnd.2 h1 h2

/-- C10: pruneStale leaves every never-triggered node untouched and off
the pruned list, and for every node only the status field can change. -/
theorem pruneStale_untriggered_frame (t : TreeData) (now threshold : ℚ) :
    (∀ k n, (k, n) ∈ t.nodes → n.last_triggered = none →
      ((k, n) ∈ (pruneStale t now threshold).1.nodes ∧
       ((t.nodes.map Prod.fst).Nodup → k ∉ (pruneStale t now threshold).2))) ∧
    (∀ k n, (k, n) ∈ t.nodes →
      ∃ n', (k, n') ∈ (pruneStale t now threshold).1.nodes ∧ sameExceptStatus n n') := by
  constructor
  · intro k n hmem hnone
    have he : pruneEntry now (threshold * 24 * 60 * 60 * 1000) (k, n) = ((k, n), false) :=
      pruneEntry_untriggered _ _ _ hnone
    constructor
    · simp only [pruneStale]
      exact List.mem_map.mpr ⟨((k, n), false), List.mem_map.mpr ⟨(k, n), hmem, he⟩, rfl⟩
    · intro hnd hk
      simp only [pruneStale] at hk
      rw [List.mem_map] at hk
      obtain ⟨q, hq, hqk⟩ := hk
      rw [List.mem_filter] at hq
      obtain ⟨hq1, hq2⟩ := hq
      rw [List.mem_map] at hq1
      obtain ⟨p, hp, hpe⟩ := hq1
      have hkey : p.1 = k := by
        rw [← hqk, ← hpe]
        exact (pruneEntry_key _ _ _).symm
      have hpmem : (k, p.2) ∈ t.nodes := by
        rw [← hkey]
        exact hp
      have heq : p.2 = n := nodupKeys_unique hnd hpmem hmem
      have : q = ((k, n), false) := by
        rw [← hpe, ← he]
        congr 1
        rw [← hkey, ← heq]
      rw [this] at hq2
      cases hq2
  · intro k n hmem
    refine ⟨(pruneEntry now (threshold * 24 * 60 * 60 * 1000) (k, n)).1.2, ?_, ?_⟩
    · simp only [pruneStale]
      refine List.mem_map.mpr ⟨pruneEntry now (threshold * 24 * 60 * 60 * 1000) (k, n),
        List.mem_map.mpr ⟨(k, n), hmem, rfl⟩, ?_⟩
      rw [Prod.ext_iff]
      exact ⟨pruneEntry_key now (threshold * 24 * 60 * 60 * 1000) (k, n), rfl⟩
    · exact pruneEntry_sameExceptStatus _ _ _

/-- C10 witness: the frame theorem at a concrete tree whose node cap.a
has never been triggered. -/
theorem pruneStale_untriggered_frame_witness :
    (("cap.a", nA) ∈ (pruneStale tWF 0 30).1.nodes ∧
     "cap.a" ∉ (pruneStale tWF 0 30).2) ∧
    (∃ n', ("cap.a", n') ∈ (pruneStale tWF 0 30).1.nodes ∧ sameExceptStatus nA n') := by
  have h := pruneStale_untriggered_frame tWF 0 30
  have h1 := h.1 "cap.a" nA (by decide) (by decide)
  exact ⟨⟨h1.1, h1.2 (by decide)⟩, h.2 "cap.a" nA (by decide)⟩

/-! Claim C3: the all-error stagnation signals. -/

/-- addSignal keeps earlier members. -/
theorem mem_addSignal {a : String} (sigs : List String) (s : String) (h : a ∈ sigs) :
    a ∈ addSignal sigs s := by
  rw [addSignal]
  split_ifs
  · exact h
  · exact List.mem_append_left _ h

/-- addSignal makes its argument a member. -/
theorem mem_addSignal_self (sigs : List String) (s : String) : s ∈ addSignal sigs s := by
  rw [addSignal]
  split_ifs with h
  · exact h
  · exact List.mem_append_right _ (List.mem_singleton_self s)

/-- A fold whose step keeps members keeps members. -/
theorem mem_foldl_pres {α : Type} {f : List String → α → List String}
    (hf : ∀ s x a, a ∈ s → a ∈ f s x) :
    ∀ (l : List α) (s0 : List String) (a : String), a ∈ s0 → a ∈ l.foldl f s0 := by
  intro l
  induction l with
  | nil => exact fun s0 a ha => ha
  | cons x xs ih => exact fun s0 a ha => ih (f s0 x) a (hf s0 x a ha)

/-- The capability-signal step keeps members. -/
theorem capabilityStep_pres (sigs : List String) (e : Entry) (a : String) (h : a ∈ sigs) :
    a ∈ capabilityStep sigs e := by
  rw [capabilityStep]
  split_ifs <;>
    first
      | exact h
      | exact mem_addSignal _ _ h
      | exact mem_addSignal _ _ (mem_addSignal _ _ h)

/-- The capability-signal section keeps members. -/
theorem capabilitySignals_pres (entries : List Entry) (sigs : List String) (a : String)
    (h : a ∈ sigs) : a ∈ capabilitySignals entries sigs :=
  mem_foldl_pres (fun s e b hb => capabilityStep_pres s e b hb) entries sigs a h

/-- C3 counterexample: six assistant entries, one success then five
errors, so the most recent five responses are all errors; yet
extractSignals does not emit evolution_stagnation, because the source
requires every assistant message of the window to be an error. -/
theorem extractSignals_c3_counterexample :
    (5 ≤ (entriesMixed.filter isAssistantMsg).length ∧
     ((entriesMixed.filter isAssistantMsg).drop
        ((entriesMixed.filter isAssistantMsg).length - 5)).all msgIsError = true) ∧
    "evolution_stagnation" ∉ extractSignals entriesMixed := by
  decide

/-- C3 amended: whenever the log holds at least five assistant responses
and all of them are error responses, extractSignals emits both
recurring_error and evolution_stagnation. -/
theorem extractSignals_all_error_stagnation (entries : List Entry)
    (h5 : 5 ≤ (entries.filter isAssistantMsg).length)
    (hall : (entries.filter isAssistantMsg).all msgIsError = true) :
    "recurring_error" ∈ extractSignals entries ∧
    "evolution_stagnation" ∈ extractSignals entries := by
  have hne : entries.isEmpty = false := by
    cases entries with
    | nil => simp at h5
    | cons e es => rfl
  have hstag : ∀ sigs, "recurring_error" ∈ stagnationSignals entries sigs ∧
      "evolution_stagnation" ∈ stagnationSignals entries sigs := by
    intro sigs
    simp only [stagnationSignals]
    rw [if_pos ⟨h5, hall⟩]
    exact ⟨mem_addSignal _ _ (mem_addSignal_self _ _), mem_addSignal_self _ _⟩
  simp only [extractSignals, hne, Bool.false_eq_true, if_false]
  exact ⟨capabilitySignals_pres _ _ _ (hstag _).1, capabilitySignals_pres _ _ _ (hstag _).2⟩

/-- C3 witness: the amended theorem at five all-error assistant entries. -/
theorem extractSignals_all_error_stagnation_witness :
    "recurring_error" ∈ extractSignals entriesAllErr ∧
    "evolution_stagnation" ∈ extractSignals entriesAllErr :=
  extractSignals_all_error_stagnation entriesAllErr (by decide) (by decide)

/-! Claim C8: capability-tree add and remove invariants. -/

/-- findNode misses exactly when no entry carries the key. -/
theorem findNode_eq_none_iff (l : List (String × CapNode)) (key : String) :
    findNode l key = none ↔ ∀ p ∈ l, p.1 ≠ key := by
  induction l with
  | nil => simp [findNode]
  | cons p rest ih =>
    rw [findNode]
    by_cases h : p.1 = key
    · simp [h]
    · simp [h, ih]

/-- A findNode hit is an entry of the map. -/
theorem findNode_mem (l : List (String × CapNode)) (key : String) (v : CapNode)
    (h : findNode l key = some v) : (key, v) ∈ l := by
  induction l with
  | nil => cases h
  | cons p rest ih =>
    rw [findNode] at h
    by_cases hp : p.1 = key
    · rw [if_pos hp] at h
      refine List.mem_cons.mpr (Or.inl ?_)
      rw [Prod.ext_iff]
      exact ⟨hp.symm, (Option.some.inj h).symm⟩
    · rw [if_neg hp] at h
      exact List.mem_cons_of_mem _ (ih h)

/-- Membership after deleting a key. -/
theorem mem_eraseKey (l : List (String × CapNode)) (key k : String) (m : CapNode)
    (h : (k, m) ∈ eraseKey l key) : (k, m) ∈ l ∧ k ≠ key := by
  rw [eraseKey, List.mem_filter] at h
  exact ⟨h.1, by simpa using h.2⟩

/-- A deleted key is gone. -/
theorem findNode_eraseKey_self (l : List (String × CapNode)) (key : String) :
    findNode (eraseKey l key) key = none := by
  rw [findNode_eq_none_iff]
  intro p hp
  rw [eraseKey, List.mem_filter] at hp
  simpa using hp.2

/-- Membership after a children update: the entry at the updated key gets
the new children, every other entry is untouched. -/
theorem mem_updateChildren (l : List (String × CapNode)) (key : String)
    (f : List String → List String) (k : String) (m : CapNode)
    (h : (k, m) ∈ updateChildren l key f) :
    ∃ m0, (k, m0) ∈ l ∧
      ((k = key ∧ m = { m0 with children := f m0.children }) ∨ (k ≠ key ∧ m = m0)) := by
  rw [updateChildren, List.mem_map] at h
  obtain ⟨p, hp, he⟩ := h
  by_cases hk : p.1 = key
  · rw [if_pos hk] at he
    obtain ⟨h1, h2⟩ := Prod.mk.injEq _ _ _ _ |>.mp he
    have hpm : (p.1, p.2) ∈ l := hp
    rw [h1] at hpm
    exact ⟨p.2, hpm, Or.inl ⟨by rw [← h1, hk], h2.symm⟩⟩
  · rw [if_neg hk] at he
    have hpm : (k, m) ∈ l := by rw [← he]; exact hp
    have hk2 : k ≠ key := by
      intro hkk
      apply hk
      rw [he, hkk]
    exact ⟨m, hpm, Or.inr ⟨hk2, rfl⟩⟩

/-- Shrinks is reflexive. -/
theorem shrinks_refl (t : TreeData) : Shrinks t t :=
  ⟨rfl, fun _ h => h, fun _ m h => ⟨m, h, fun _ hc => hc⟩⟩

/-- Shrinks is transitive. -/
theorem shrinks_trans {a b c : TreeData} (h1 : Shrinks a b) (h2 : Shrinks b c) :
    Shrinks a c := by
  obtain ⟨r1, rc1, n1⟩ := h1
  obtain ⟨r2, rc2, n2⟩ := h2
  refine ⟨r1.trans r2, fun x hx => rc2 x (rc1 x hx), fun k m hm => ?_⟩
  obtain ⟨m1, hm1, hc1⟩ := n1 k m hm
  obtain ⟨m2, hm2, hc2⟩ := n2 k m1 hm1
  exact ⟨m2, hm2, fun x hx => hc2 x (hc1 x hx)⟩

/-- The finishing step of removeNode only deletes entries and filters
child lists. -/
theorem removeFinish_shrinks (t1 : TreeData) (node : CapNode) (id : String) :
    Shrinks (removeFinish t1 node id) t1 := by
  rw [removeFinish]
  split_ifs with h1 h2
  · exact ⟨rfl, fun c hc => (List.mem_filter.mp hc).1,
      fun k m hm => ⟨m, (mem_eraseKey _ _ _ _ hm).1, fun _ hc => hc⟩⟩
  · refine ⟨rfl, fun c hc => hc, fun k m hm => ?_⟩
    obtain ⟨hm1, -⟩ := mem_eraseKey _ _ _ _ hm
    obtain ⟨m0, hm0, hcase⟩ := mem_updateChildren _ _ _ _ _ hm1
    rcases hcase with ⟨-, hm2⟩ | ⟨-, hm2⟩
    · refine ⟨m0, hm0, fun c hc => ?_⟩
      rw [hm2] at hc
      exact (List.mem_filter.mp hc).1
    · exact ⟨m0, hm0, fun c hc => by rw [← hm2]; exact hc⟩
  · exact ⟨rfl, fun c hc => hc,
      fun k m hm => ⟨m, (mem_eraseKey _ _ _ _ hm).1, fun _ hc => hc⟩⟩

/-- A fold of shrinking steps shrinks. -/
theorem foldl_shrinks (g : TreeData → String → TreeData)
    (hg : ∀ acc c, Shrinks (g acc c) acc) :
    ∀ (l : List String) (acc : TreeData), Shrinks (l.foldl g acc) acc := by
  intro l
  induction l with
  | nil => exact fun acc => shrinks_refl acc
  | cons c cs ih =>
    intro acc
    rw [List.foldl_cons]
    exact shrinks_trans (ih (g acc c)) (hg acc c)

/-- removeNodeAux only ever deletes entries and filters child lists. -/
theorem removeNodeAux_shrinks :
    ∀ (fuel : Nat) (t : TreeData) (id : String), Shrinks (removeNodeAux fuel t id).1 t := by
  intro fuel
  induction fuel with
  | zero => exact fun t _ => shrinks_refl t
  | succ n ih =>
    intro t id
    rw [removeNodeAux]
    cases hf : findNode t.nodes id with
    | none => exact shrinks_refl t
    | some node =>
      exact shrinks_trans (removeFinish_shrinks _ node id)
        (foldl_shrinks _ (fun acc c => ih acc c) node.children t)

/-- In a well-formed tree the root id is not a node key. -/
theorem wf_root_key (t : TreeData) (hwf : wellFormedB t = true) :
    ∀ k m, (k, m) ∈ t.nodes → k ≠ t.root.id := by
  intro k m hm heq
  rw [wellFormedB, Bool.and_eq_true, Bool.and_eq_true] at hwf
  have h := hwf.1.1
  rw [Option.isNone_iff_eq_none, findNode_eq_none_iff] at h
  exact h (k, m) hm (by rw [heq])

/-- In a well-formed tree every root child reference resolves to a node
whose parent is the root. -/
theorem wf_root_children (t : TreeData) (hwf : wellFormedB t = true) :
    ∀ c ∈ t.root.children,
      ∃ child, findNode t.nodes c = some child ∧ child.parent_id = t.root.id := by
  intro c hc
  rw [wellFormedB, Bool.and_eq_true, Bool.and_eq_true] at hwf
  have h := List.all_eq_true.mp hwf.1.2 c hc
  rw [childOk] at h
  cases hfn : findNode t.nodes c with
  | none =>
    rw [hfn] at h
    cases h
  | some child =>
    rw [hfn] at h
    exact ⟨child, rfl, by simpa using h⟩

/-- In a well-formed tree every node child reference resolves to a node
whose parent is the referring key. -/
theorem wf_node_children (t : TreeData) (hwf : wellFormedB t = true) :
    ∀ k m, (k, m) ∈ t.nodes → ∀ c ∈ m.children,
      ∃ child, findNode t.nodes c = some child ∧ child.parent_id = k := by
  intro k m hm c hc
  rw [wellFormedB, Bool.and_eq_true, Bool.and_eq_true] at hwf
  have h := List.all_eq_true.mp (List.all_eq_true.mp hwf.2 (k, m) hm) c hc
  rw [childOk] at h
  cases hfn : findNode t.nodes c with
  | none =>
    rw [hfn] at h
    cases h
  | some child =>
    rw [hfn] at h
    exact ⟨child, rfl, by simpa using h⟩

/-- addNode with a parent that is neither the root nor a stored node
always fails. -/
theorem addNode_missing_parent (t : TreeData) (n : CapNode)
    (hne : n.parent_id ≠ t.root.id) (habs : findNode t.nodes n.parent_id = none) :
    ∃ e, addNode t n = Except.error e := by
  rw [addNode]
  split_ifs with h1 h2
  · exact ⟨_, rfl⟩
  · exact ⟨_, rfl⟩
  · rw [habs]
    exact ⟨_, rfl⟩

/-- After a successful removeNode on a well-formed tree, the id resolves
to nothing and no surviving child list (root included) references it. -/
theorem removeNode_clean (t : TreeData) (id : String) (res : TreeData)
    (hwf : wellFormedB t = true) (hrm : removeNode t id = (res, true)) :
    getNode res id = none ∧ id ∉ res.root.children ∧
    ∀ k m, (k, m) ∈ res.nodes → id ∉ m.children := by
  rw [removeNode, removeNodeAux] at hrm
  cases hf : findNode t.nodes id with
  | none =>
    rw [hf] at hrm
    simp at hrm
  | some node =>
    rw [hf] at hrm
    have hres : removeFinish
        (node.children.foldl (fun acc c => (removeNodeAux t.nodes.length acc c).1) t) node id =
        res := by
      have h := congrArg Prod.fst hrm
      exact h
    set T1 := node.children.foldl (fun acc c => (removeNodeAux t.nodes.length acc c).1) t
      with hT1
    have hS1 : Shrinks T1 t :=
      foldl_shrinks _ (fun acc c => removeNodeAux_shrinks _ acc c) node.children t
    have hmemt : (id, node) ∈ t.nodes := findNode_mem _ _ _ hf
    have hidroot : id ≠ t.root.id := wf_root_key t hwf id node hmemt
    have hidrootT1 : id ≠ T1.root.id := by
      rw [hS1.1]
      exact hidroot
    subst hres
    by_cases hpr : node.parent_id = T1.root.id
    · have hfin : removeFinish T1 node id =
          { root := { T1.root with
              children := T1.root.children.filter (fun c => decide (c ≠ id)) },
            nodes := eraseKey T1.nodes id } := by
        rw [removeFinish]
        rw [if_pos hpr]
      rw [hfin]
      refine ⟨?_, ?_, ?_⟩
      · simp [getNode, hidrootT1, findNode_eraseKey_self]
      · intro hin
        rw [List.mem_filter] at hin
        simp at hin
      · intro k m hm hidm
        obtain ⟨hm1, -⟩ := mem_eraseKey _ _ _ _ hm
        obtain ⟨m0, hm0, hsub⟩ := hS1.2.2 k m hm1
        obtain ⟨child, hchild, hpid⟩ := wf_node_children t hwf k m0 hm0 id (hsub id hidm)
        have hcn : child = node := by
          rw [hf] at hchild
          exact (Option.some.inj hchild).symm
        rw [hcn] at hpid
        have : k = t.root.id := by
          rw [← hpid, hpr, hS1.1]
        exact wf_root_key t hwf k m0 hm0 this
    · have hpr' : node.parent_id ≠ t.root.id := by
        rw [← hS1.1]
        exact hpr
      have hroot_no : id ∉ T1.root.children := by
        intro hin
        obtain ⟨child, hchild, hpid⟩ := wf_root_children t hwf id (hS1.2.1 id hin)
        have hcn : child = node := by
          rw [hf] at hchild
          exact (Option.some.inj hchild).symm
        rw [hcn] at hpid
        exact hpr' hpid
      by_cases hpe : (findNode T1.nodes node.parent_id).isSome
      · have hfin : removeFinish T1 node id =
            { root := T1.root,
              nodes := eraseKey (updateChildren T1.nodes node.parent_id
                (fun cs => cs.filter (fun c => decide (c ≠ id)))) id } := by
          rw [removeFinish]
          rw [if_neg hpr, if_pos hpe]
        rw [hfin]
        refine ⟨?_, hroot_no, ?_⟩
        · simp [getNode, hidrootT1, findNode_eraseKey_self]
        · intro k m hm hidm
          obtain ⟨hm1, -⟩ := mem_eraseKey _ _ _ _ hm
          obtain ⟨m1, hm1', hcase⟩ := mem_updateChildren _ _ _ _ _ hm1
          rcases hcase with ⟨-, hm2⟩ | ⟨hkne, hm2⟩
          · rw [hm2] at hidm
            rw [List.mem_filter] at hidm
            simp at hidm
          · rw [hm2] at hidm
            obtain ⟨m0, hm0, hsub⟩ := hS1.2.2 k m1 hm1'
            obtain ⟨child, hchild, hpid⟩ :=
              wf_node_children t hwf k m0 hm0 id (hsub id hidm)
            have hcn : child = node := by
              rw [hf] at hchild
              exact (Option.some.inj hchild).symm
            rw [hcn] at hpid
            exact hkne hpid.symm
      · have hfin : removeFinish T1 node id =
            { root := T1.root, nodes := eraseKey T1.nodes id } := by
          rw [removeFinish]
          rw [if_neg hpr, if_neg hpe]
        rw [hfin]
        refine ⟨?_, hroot_no, ?_⟩
        · simp [getNode, hidrootT1, findNode_eraseKey_self]
        · intro k m hm hidm
          obtain ⟨hm1, -⟩ := mem_eraseKey _ _ _ _ hm
          obtain ⟨m0, hm0, hsub⟩ := hS1.2.2 k m hm1
          obtain ⟨child, hchild, hpid⟩ := wf_node_children t hwf k m0 hm0 id (hsub id hidm)
          have hcn : child = node := by
            rw [hf] at hchild
            exact (Option.some.inj hchild).symm
          rw [hcn] at hpid
          have hnone : findNode T1.nodes node.parent_id = none :=
            Option.not_isSome_iff_eq_none.mp hpe
          rw [findNode_eq_none_iff] at hnone
          exact hnone (k, m) hm1 hpid.symm

/-- C8: adding under an absent parent always fails, and a successful
removal detaches the id from the map and from every surviving child
list. -/
theorem capabilityTree_addRemove_invariant :
    (∀ t n, n.parent_id ≠ t.root.id → findNode t.nodes n.parent_id = none →
      ∃ e, addNode t n = Except.error e) ∧
    (∀ t id res, wellFormedB t = true → removeNode t id = (res, true) →
      getNode res id = none ∧ id ∉ res.root.children ∧
      ∀ k m, (k, m) ∈ res.nodes → id ∉ m.children) :=
  ⟨addNode_missing_parent, removeNode_clean⟩

/-- C8 witness: the invariant at the concrete tree tWF, with an orphan
insertion attempt and the removal of cap.a. -/
theorem capabilityTree_addRemove_invariant_witness :
    (∃ e, addNode tWF nOrphan = Except.error e) ∧
    (getNode (removeNode tWF "cap.a").1 "cap.a" = none ∧
     "cap.a" ∉ (removeNode tWF "cap.a").1.root.children ∧
     ∀ k m, (k, m) ∈ (removeNode tWF "cap.a").1.nodes → "cap.a" ∉ m.children) :=
  ⟨capabilityTree_addRemove_invariant.1 tWF nOrphan (by decide) (by decide),
   capabilityTree_addRemove_invariant.2 tWF "cap.a" (removeNode tWF "cap.a").1
     (by decide) (by decide)⟩

end CcEvo
